import Mathlib

/-!
Verification of the `busqueitor` Spanish identity-document validator
(`src/busqueitor.py`, class `DocumentValidator`).

Strings are modelled as `List Char` (the relevant behaviour is over ASCII
text; Python's `str.upper`, `\s`, `\d`, `[A-Z]` are modelled at their ASCII
meaning, which is what all document tokens use).  Python exceptions that the
validators raise and catch (`IndexError`, `ValueError`, `KeyError`) are
modelled with `Except`.
-/

namespace Busqueitor

/-- The characters removed by `clean_document`'s regex `[\s.-]`:
ASCII whitespace (space, tab, newline, carriage return, vertical tab,
form feed) together with the period and the hyphen. -/
def isSeparator (c : Char) : Bool :=
  c == ' ' || c == '\t' || c == '\n' || c == '\r' ||
  c == '\x0b' || c == '\x0c' || c == '.' || c == '-'

/-- ASCII model of Python `str.upper` applied to one character:
a lowercase letter (code 97-122) is shifted down by 32, anything else
is unchanged. -/
def upperChar (c : Char) : Char :=
  if 97 ≤ c.toNat ∧ c.toNat ≤ 122 then Char.ofNat (c.toNat - 32) else c

/-- `DocumentValidator.clean_document`:
`re.sub(r'[\s.-]', '', doc).upper()` — first remove the separator
characters, then uppercase the result. -/
def clean_document (doc : List Char) : List Char :=
  (doc.filter (fun c => !(isSeparator c))).map upperChar

/-! ### Validation constants and shape predicates -/

/-- `DocumentValidator.LETRAS_VALIDACION = 'TRWAGMYFPDXBNJZSQVHLCKET'`. -/
def LETRAS_VALIDACION : List Char := "TRWAGMYFPDXBNJZSQVHLCKET".data

/-- Regex class `\d` at its ASCII meaning: a decimal digit. -/
def isDigitChar (c : Char) : Bool := '0' ≤ c && c ≤ '9'

/-- Regex class `[A-Z]`: an uppercase ASCII letter. -/
def isUpperAlpha (c : Char) : Bool := 'A' ≤ c && c ≤ 'Z'

/-- Regex class `[A-HJNP-SUVW]` from `PATRON_NIF` (ranges A-H, P-S, U-W
plus J and N). -/
def isNifLeading (c : Char) : Bool :=
  ('A' ≤ c && c ≤ 'H') || c == 'J' || c == 'N' ||
  ('P' ≤ c && c ≤ 'S') || ('U' ≤ c && c ≤ 'W')

/-- The anchored regex `^\d{8}[A-Z]$` of `validate_dni`:
exactly eight digits followed by one uppercase letter. -/
def matches_dni : List Char → Bool
  | [d1, d2, d3, d4, d5, d6, d7, d8, l] =>
    isDigitChar d1 && isDigitChar d2 && isDigitChar d3 && isDigitChar d4 &&
    isDigitChar d5 && isDigitChar d6 && isDigitChar d7 && isDigitChar d8 &&
    isUpperAlpha l
  | _ => false

/-- The anchored regex `^[XYZ]\d{7}[A-Z]$` of `validate_nie`. -/
def matches_nie : List Char → Bool
  | [p, d1, d2, d3, d4, d5, d6, d7, l] =>
    (p == 'X' || p == 'Y' || p == 'Z') &&
    isDigitChar d1 && isDigitChar d2 && isDigitChar d3 && isDigitChar d4 &&
    isDigitChar d5 && isDigitChar d6 && isDigitChar d7 &&
    isUpperAlpha l
  | _ => false

/-- The anchored regex `^[A-HJNP-SUVW]\d{7}[0-9A-Z]$` of `validate_nif`. -/
def matches_nif : List Char → Bool
  | [p, d1, d2, d3, d4, d5, d6, d7, t] =>
    isNifLeading p &&
    isDigitChar d1 && isDigitChar d2 && isDigitChar d3 && isDigitChar d4 &&
    isDigitChar d5 && isDigitChar d6 && isDigitChar d7 &&
    (isDigitChar t || isUpperAlpha t)
  | _ => false

/-- Python `int(...)` on the digit strings the validators feed it:
a non-empty all-digit string parses to its decimal value, anything else
raises `ValueError` (returns `none`).  The validators only ever call it on
regex-guaranteed digit substrings. -/
def int? (s : List Char) : Option Nat :=
  if !s.isEmpty && s.all isDigitChar then
    some (s.foldl (fun a c => 10 * a + (c.toNat - 48)) 0)
  else none

/-- The exceptions named in the validators' `except` clauses. -/
inductive PyErr
  | indexError
  | valueError
  | keyError
deriving DecidableEq

/-- The dict `prefix = {'X': '0', 'Y': '1', 'Z': '2'}` of `validate_nie`;
a missing key raises `KeyError` (modelled as `none`). -/
def prefijoNIE (c : Char) : Option Char :=
  if c = 'X' then some '0'
  else if c = 'Y' then some '1'
  else if c = 'Z' then some '2'
  else none

/-! ### Validators

Each validator's `try` body is an `Except PyErr Bool`; the `except`
clauses map a raised error to `False`.  Indexing `dni[-1]` / `nie[0]` /
`nie[-1]` raises `IndexError` on an empty string, `int` raises
`ValueError`, the `prefix` dict raises `KeyError`, and
`LETRAS_VALIDACION[i]` raises `IndexError` out of range — each is
modelled as an `Option` whose `none` throws. -/

/-- Body of `DocumentValidator.validate_dni` (the code inside `try`). -/
def validate_dni_body (dni : List Char) : Except PyErr Bool :=
  let d := clean_document dni
  if matches_dni d then
    match d.getLast? with
    | none => Except.error PyErr.indexError
    | some letter =>
      match int? d.dropLast with
      | none => Except.error PyErr.valueError
      | some n =>
        match LETRAS_VALIDACION[n % 23]? with
        | none => Except.error PyErr.indexError
        | some ch => Except.ok (letter == ch)
  else Except.ok false

/-- Body of `DocumentValidator.validate_nie` (the code inside `try`). -/
def validate_nie_body (nie : List Char) : Except PyErr Bool :=
  let d := clean_document nie
  if matches_nie d then
    match d.head? with
    | none => Except.error PyErr.indexError
    | some c0 =>
      match prefijoNIE c0 with
      | none => Except.error PyErr.keyError
      | some p =>
        match d.getLast? with
        | none => Except.error PyErr.indexError
        | some letter =>
          match int? (p :: d.tail.dropLast) with
          | none => Except.error PyErr.valueError
          | some n =>
            match LETRAS_VALIDACION[n % 23]? with
            | none => Except.error PyErr.indexError
            | some ch => Except.ok (letter == ch)
  else Except.ok false

/-- The `except (...): return False` clauses.  `validate_dni` catches
`IndexError, ValueError` and `validate_nie` catches
`IndexError, ValueError, KeyError`; catching every `PyErr` constructor
is faithful for both, since the DNI body contains no dict lookup and so
never raises `KeyError`. -/
def catchPy (r : Except PyErr Bool) : Bool :=
  match r with
  | Except.ok b => b
  | Except.error _ => false

/-- `DocumentValidator.validate_dni`. -/
def validate_dni (dni : List Char) : Bool := catchPy (validate_dni_body dni)

/-- `DocumentValidator.validate_nie`. -/
def validate_nie (nie : List Char) : Bool := catchPy (validate_nie_body nie)

/-- `DocumentValidator.validate_nif`:
`bool(re.match(r'^[A-HJNP-SUVW]\d{7}[0-9A-Z]$', clean_document(nif)))` —
a pure shape test, no `try` needed (nothing in it can raise). -/
def validate_nif (nif : List Char) : Bool := matches_nif (clean_document nif)

/-! ### Scanner / aggregator (`process_pdf`, lines 193-232)

Only the scanning loop over the extracted text is modelled; PDF text
extraction and download are external collaborators.  All three scanner
patterns (`PATRON_DNI`, `PATRON_NIE`, `PATRON_NIF`) are `\b<token>\b`
where the token part is the respective anchored validator shape and is
exactly 9 characters long, beginning and ending with a word character,
so the word-boundary assertions reduce to the neighbour (if any) not
being a word character. -/

/-- Regex class `\w` at its ASCII meaning: `[A-Za-z0-9_]`. -/
def isWordChar (c : Char) : Bool :=
  isDigitChar c || isUpperAlpha c || ('a' ≤ c && c ≤ 'z') || c == '_'

/-- A `\b<token>\b` match of the 9-character token shape `tok` starting
at offset `i` of `text`. -/
def matchAt (tok : List Char → Bool) (text : List Char) (i : Nat) : Bool :=
  decide (i + 9 ≤ text.length) &&
  tok ((text.drop i).take 9) &&
  (i == 0 || !(isWordChar (text.getD (i - 1) ' '))) &&
  (i + 9 == text.length || !(isWordChar (text.getD (i + 9) ' ')))

/-- `re.finditer`: scan left to right from offset `i`; at a match yield
it and continue at its end (matches are non-overlapping), otherwise
advance one character.  `fuel` bounds the recursion. -/
def finditer_go (tok : List Char → Bool) (text : List Char) :
    Nat → Nat → List (Nat × List Char)
  | 0, _ => []
  | fuel + 1, i =>
    if i + 9 ≤ text.length then
      if matchAt tok text i then
        (i, (text.drop i).take 9) :: finditer_go tok text fuel (i + 9)
      else finditer_go tok text fuel (i + 1)
    else []

/-- All matches of a 9-character `\b<token>\b` pattern, with their start
offsets, in ascending offset order. -/
def finditer (tok : List Char → Bool) (text : List Char) :
    List (Nat × List Char) :=
  finditer_go tok text (text.length + 1) 0

/-- The three document types, in the fixed scan order of `process_pdf`. -/
inductive Tipo
  | DNI
  | NIE
  | NIF
deriving DecidableEq

/-- Token shape of the scanner pattern for each type. -/
def patronOf : Tipo → (List Char → Bool)
  | Tipo.DNI => matches_dni
  | Tipo.NIE => matches_nie
  | Tipo.NIF => matches_nif

/-- The validator dispatched on `tipo` in the scan loop. -/
def validatorOf : Tipo → (List Char → Bool)
  | Tipo.DNI => validate_dni
  | Tipo.NIE => validate_nie
  | Tipo.NIF => validate_nif

/-- One entry of the `resultados` list built by `process_pdf`. -/
structure Resultado where
  tipo : Tipo
  documento : List Char
  documento_limpio : List Char
  valido : Bool
deriving DecidableEq

/-- The `self.stats` dict initialised in `DocumentValidator.__init__`. -/
structure Stats where
  archivos_procesados : Nat
  dni_validos : Nat
  nie_validos : Nat
  nif_validos : Nat
  docs_invalidos : Nat
deriving DecidableEq

/-- `__init__`: every counter starts at zero. -/
def initStats : Stats :=
  { archivos_procesados := 0, dni_validos := 0, nie_validos := 0,
    nif_validos := 0, docs_invalidos := 0 }

/-- The record appended to `resultados` for one match. -/
def mkResultado (tipo : Tipo) (doc : List Char) : Resultado :=
  { tipo := tipo, documento := doc,
    documento_limpio := clean_document doc,
    valido := validatorOf tipo (clean_document doc) }

/-- The counter update for one match: the per-type valid counter on a
valid document, `docs_invalidos` otherwise. -/
def bumpStats (st : Stats) (tipo : Tipo) (valido : Bool) : Stats :=
  if valido then
    match tipo with
    | Tipo.DNI => { st with dni_validos := st.dni_validos + 1 }
    | Tipo.NIE => { st with nie_validos := st.nie_validos + 1 }
    | Tipo.NIF => { st with nif_validos := st.nif_validos + 1 }
  else { st with docs_invalidos := st.docs_invalidos + 1 }

/-- One iteration of the `for match in coincidencias` loop of
`process_pdf`: append a `Resultado` for the match and update the
counters. -/
def scanStep (tipo : Tipo) (acc : List Resultado × Stats)
    (m : Nat × List Char) : List Resultado × Stats :=
  let r := mkResultado tipo m.2
  (acc.1 ++ [r], bumpStats acc.2 tipo r.valido)

/-- The inner `for match in coincidencias` loop of `process_pdf` for one
pattern. -/
def scanTipo (tipo : Tipo) (texto : List Char)
    (acc : List Resultado × Stats) : List Resultado × Stats :=
  (finditer (patronOf tipo) texto).foldl (scanStep tipo) acc

/-- The scanning part of `process_pdf`: the three passes in fixed order
DNI, NIE, NIF over the full text, then `archivos_procesados += 1`.
Returns the `resultados` list and the updated stats. -/
def process_text (texto : List Char) (st : Stats) : List Resultado × Stats :=
  let acc1 := scanTipo Tipo.DNI texto ([], st)
  let acc2 := scanTipo Tipo.NIE texto acc1
  let acc3 := scanTipo Tipo.NIF texto acc2
  (acc3.1,
   { acc3.2 with archivos_procesados := acc3.2.archivos_procesados + 1 })

/-- The NIF shape as the specification words it (spec-side, the refinement
target for the NIF claim): one letter from the seventeen-letter set
ABCDEFGHJNPQRSUVW, exactly seven decimal digits, and one trailing
character that is a decimal digit or an uppercase letter. -/
def nifShapeSpec : List Char → Bool
  | [p, d1, d2, d3, d4, d5, d6, d7, t] =>
    decide (p ∈ "ABCDEFGHJNPQRSUVW".data) &&
    isDigitChar d1 && isDigitChar d2 && isDigitChar d3 && isDigitChar d4 &&
    isDigitChar d5 && isDigitChar d6 && isDigitChar d7 &&
    (isDigitChar t || isUpperAlpha t)
  | _ => false

/-! ### Spec-side constructions (zero-padded decimal strings) -/

/-- The digit character of a decimal digit (spec-side, for writing the
zero-padded representation of a number). -/
def digitChar (d : Nat) : Char := Char.ofNat (48 + d)

/-- The 8-digit zero-padded decimal representation of `n < 10^8`
(spec-side). -/
def pad8 (n : Nat) : List Char :=
  [digitChar (n / 10000000 % 10), digitChar (n / 1000000 % 10),
   digitChar (n / 100000 % 10), digitChar (n / 10000 % 10),
   digitChar (n / 1000 % 10), digitChar (n / 100 % 10),
   digitChar (n / 10 % 10), digitChar (n % 10)]

/-- The numeric value of a decimal-digit string (spec-side: what
"parse the digits as an unsigned integer" denotes). -/
def decimalValue (s : List Char) : Nat :=
  s.foldl (fun a c => 10 * a + (c.toNat - 48)) 0


/-! ### Character facts -/

theorem toNat_ofNat_lt (n : Nat) (h : n < 55296) : (Char.ofNat n).toNat = n := by
  have hv : n.isValidChar := Or.inl h
  simp [Char.ofNat, hv, Char.ofNatAux, Char.toNat, UInt32.toNat]

theorem char_eq_iff_toNat {c d : Char} : c = d ↔ c.toNat = d.toNat := by
  rw [Char.ext_iff]
  constructor
  · intro h; simp [Char.toNat, h]
  · intro h; exact UInt32.eq_of_toBitVec_eq (BitVec.eq_of_toNat_eq h)

theorem char_beq_iff_toNat {c d : Char} : (c == d) = true ↔ c.toNat = d.toNat := by
  rw [beq_iff_eq, char_eq_iff_toNat]

theorem upperChar_toNat (c : Char) :
    (upperChar c).toNat =
      if 97 ≤ c.toNat ∧ c.toNat ≤ 122 then c.toNat - 32 else c.toNat := by
  unfold upperChar
  by_cases h : 97 ≤ c.toNat ∧ c.toNat ≤ 122
  · rw [if_pos h, if_pos h, toNat_ofNat_lt]
    omega
  · rw [if_neg h, if_neg h]

theorem isSeparator_iff_toNat (c : Char) :
    isSeparator c = true ↔
      (c.toNat = 32 ∨ c.toNat = 9 ∨ c.toNat = 10 ∨ c.toNat = 13 ∨
       c.toNat = 11 ∨ c.toNat = 12 ∨ c.toNat = 46 ∨ c.toNat = 45) := by
  unfold isSeparator
  simp only [Bool.or_eq_true, char_beq_iff_toNat]
  have h1 : (' ').toNat = 32 := rfl
  have h2 : ('\t').toNat = 9 := rfl
  have h3 : ('\n').toNat = 10 := rfl
  have h4 : ('\r').toNat = 13 := rfl
  have h5 : ('\x0b').toNat = 11 := rfl
  have h6 : ('\x0c').toNat = 12 := rfl
  have h7 : ('.').toNat = 46 := rfl
  have h8 : ('-').toNat = 45 := rfl
  rw [h1, h2, h3, h4, h5, h6, h7, h8]
  tauto

theorem isSeparator_upperChar (c : Char) :
    isSeparator (upperChar c) = isSeparator c := by
  by_cases h : 97 ≤ c.toNat ∧ c.toNat ≤ 122
  · have h1 : isSeparator c = false := by
      rw [Bool.eq_false_iff]
      intro hc
      rw [isSeparator_iff_toNat] at hc
      omega
    have h2 : isSeparator (upperChar c) = false := by
      rw [Bool.eq_false_iff]
      intro hc
      rw [isSeparator_iff_toNat, upperChar_toNat, if_pos h] at hc
      omega
    rw [h1, h2]
  · have hid : upperChar c = c := by
      unfold upperChar
      rw [if_neg h]
    rw [hid]

theorem upperChar_idem (c : Char) : upperChar (upperChar c) = upperChar c := by
  rw [char_eq_iff_toNat, upperChar_toNat (upperChar c), upperChar_toNat c]
  split_ifs <;> omega

theorem clean_document_idem (s : List Char) :
    clean_document (clean_document s) = clean_document s := by
  unfold clean_document
  rw [List.filter_eq_self.mpr, List.map_map]
  · exact List.map_congr_left (fun a _ => upperChar_idem a)
  · intro a ha
    simp only [List.mem_map, List.mem_filter] at ha
    obtain ⟨b, ⟨_, hb⟩, rfl⟩ := ha
    rw [Bool.not_eq_true', isSeparator_upperChar]
    rwa [Bool.not_eq_true'] at hb


example : validate_dni "12345678Z".data = true := by decide
example : validate_dni "12345678A".data = false := by decide
example : validate_dni "12.345.678-z".data = true := by decide
example : validate_nie "X1234567L".data = true := by decide
example : validate_nie "X1234567A".data = false := by decide
example : validate_nif "B1234567C".data = true := by decide
example : validate_nif "I1234567C".data = false := by decide


/-! ### Supporting lemmas on characters, tokens and decimal parsing -/

theorem char_le_iff_toNat {c d : Char} : c ≤ d ↔ c.toNat ≤ d.toNat := by
  rw [Char.le_def]
  exact Iff.rfl

theorem isDigitChar_iff {c : Char} :
    isDigitChar c = true ↔ 48 ≤ c.toNat ∧ c.toNat ≤ 57 := by
  have h0 : ('0').toNat = 48 := rfl
  have h9 : ('9').toNat = 57 := rfl
  unfold isDigitChar
  simp only [Bool.and_eq_true, decide_eq_true_eq]
  rw [char_le_iff_toNat, char_le_iff_toNat, h0, h9]

theorem isUpperAlpha_iff {c : Char} :
    isUpperAlpha c = true ↔ 65 ≤ c.toNat ∧ c.toNat ≤ 90 := by
  have hA : ('A').toNat = 65 := rfl
  have hZ : ('Z').toNat = 90 := rfl
  unfold isUpperAlpha
  simp only [Bool.and_eq_true, decide_eq_true_eq]
  rw [char_le_iff_toNat, char_le_iff_toNat, hA, hZ]

theorem upperChar_eq_self_of_lt {c : Char} (h : c.toNat < 97) :
    upperChar c = c := by
  unfold upperChar
  rw [if_neg]
  omega

theorem isSeparator_false_of_ge {c : Char} (h : 48 ≤ c.toNat) :
    isSeparator c = false := by
  rw [Bool.eq_false_iff]
  intro hc
  rw [isSeparator_iff_toNat] at hc
  omega

/-- `clean_document` leaves a string of digits and uppercase letters
unchanged. -/
theorem clean_document_id_of {s : List Char}
    (h : ∀ c ∈ s, 48 ≤ c.toNat ∧ c.toNat ≤ 90) :
    clean_document s = s := by
  unfold clean_document
  rw [List.filter_eq_self.mpr]
  · rw [List.map_congr_left, List.map_id]
    intro a ha
    exact upperChar_eq_self_of_lt (by have := h a ha; omega)
  · intro a ha
    rw [Bool.not_eq_true', isSeparator_false_of_ge (h a ha).1]

theorem digitChar_toNat {d : Nat} (h : d < 10) :
    (digitChar d).toNat = 48 + d := by
  unfold digitChar
  rw [toNat_ofNat_lt]
  omega

theorem isDigitChar_digitChar {d : Nat} (h : d < 10) :
    isDigitChar (digitChar d) = true := by
  rw [isDigitChar_iff, digitChar_toNat h]
  omega

theorem int?_eq_some_of_digits {s : List Char} (hne : s ≠ [])
    (hd : ∀ c ∈ s, isDigitChar c = true) :
    int? s = some (decimalValue s) := by
  unfold int? decimalValue
  rw [if_pos]
  rw [Bool.and_eq_true, List.all_eq_true]
  constructor
  · rw [Bool.not_eq_true', List.isEmpty_eq_false]
    exact hne
  · exact hd

theorem LETRAS_length : LETRAS_VALIDACION.length = 24 := rfl

theorem letras_getElem? (n : Nat) :
    ∃ ch, LETRAS_VALIDACION[n % 23]? = some ch ∧ isUpperAlpha ch = true := by
  have h : n % 23 < LETRAS_VALIDACION.length := by
    rw [LETRAS_length]
    have := Nat.mod_lt n (show 0 < 23 by norm_num)
    omega
  refine ⟨LETRAS_VALIDACION[n % 23], List.getElem?_eq_getElem h, ?_⟩
  have hall : ∀ i, (hi : i < LETRAS_VALIDACION.length) →
      isUpperAlpha (LETRAS_VALIDACION[i]) = true := by decide
  exact hall _ h

theorem pad8_arith (n : Nat) (h : n ≤ 99999999) :
    10 * (10 * (10 * (10 * (10 * (10 * (10 * (10 * 0 +
      (48 + n / 10000000 % 10 - 48)) + (48 + n / 1000000 % 10 - 48)) +
      (48 + n / 100000 % 10 - 48)) + (48 + n / 10000 % 10 - 48)) +
      (48 + n / 1000 % 10 - 48)) + (48 + n / 100 % 10 - 48)) +
      (48 + n / 10 % 10 - 48)) + (48 + n % 10 - 48) = n := by
  omega

theorem int?_pad8 (n : Nat) (h : n ≤ 99999999) : int? (pad8 n) = some n := by
  have m1 : n / 10000000 % 10 < 10 := Nat.mod_lt _ (by norm_num)
  have m2 : n / 1000000 % 10 < 10 := Nat.mod_lt _ (by norm_num)
  have m3 : n / 100000 % 10 < 10 := Nat.mod_lt _ (by norm_num)
  have m4 : n / 10000 % 10 < 10 := Nat.mod_lt _ (by norm_num)
  have m5 : n / 1000 % 10 < 10 := Nat.mod_lt _ (by norm_num)
  have m6 : n / 100 % 10 < 10 := Nat.mod_lt _ (by norm_num)
  have m7 : n / 10 % 10 < 10 := Nat.mod_lt _ (by norm_num)
  have m8 : n % 10 < 10 := Nat.mod_lt _ (by norm_num)
  rw [int?_eq_some_of_digits (by simp [pad8]) ?digits]
  case digits =>
    intro c hc
    simp only [pad8, List.mem_cons, List.not_mem_nil, or_false] at hc
    rcases hc with rfl | rfl | rfl | rfl | rfl | rfl | rfl | rfl
    · exact isDigitChar_digitChar m1
    · exact isDigitChar_digitChar m2
    · exact isDigitChar_digitChar m3
    · exact isDigitChar_digitChar m4
    · exact isDigitChar_digitChar m5
    · exact isDigitChar_digitChar m6
    · exact isDigitChar_digitChar m7
    · exact isDigitChar_digitChar m8
  unfold decimalValue pad8
  simp only [List.foldl_cons, List.foldl_nil]
  rw [digitChar_toNat m1, digitChar_toNat m2, digitChar_toNat m3,
    digitChar_toNat m4, digitChar_toNat m5, digitChar_toNat m6,
    digitChar_toNat m7, digitChar_toNat m8]
  simp only [Option.some.injEq]
  exact pad8_arith n h

/-- Every character of `pad8 n` followed by an uppercase letter is in the
band `[48, 90]`, so `clean_document` leaves the token unchanged. -/
theorem clean_pad8_letter (n : Nat) {c : Char} (hc : isUpperAlpha c = true) :
    clean_document (pad8 n ++ [c]) = pad8 n ++ [c] := by
  apply clean_document_id_of
  intro a ha
  rw [List.mem_append] at ha
  rcases ha with ha | ha
  · simp only [pad8, List.mem_cons, List.not_mem_nil, or_false] at ha
    have hdig : ∀ d : Nat, d < 10 → 48 ≤ (digitChar d).toNat ∧ (digitChar d).toNat ≤ 90 := by
      intro d hd
      rw [digitChar_toNat hd]
      omega
    rcases ha with rfl | rfl | rfl | rfl | rfl | rfl | rfl | rfl <;>
      exact hdig _ (Nat.mod_lt _ (by norm_num))
  · rw [List.mem_singleton] at ha
    subst ha
    rw [isUpperAlpha_iff] at hc
    omega

theorem letras_mem_upper : ∀ c ∈ LETRAS_VALIDACION, isUpperAlpha c = true := by
  decide

theorem matches_dni_pad8 (n : Nat) {c : Char} (hc : isUpperAlpha c = true) :
    matches_dni (pad8 n ++ [c]) = true := by
  have hd : ∀ m : Nat, isDigitChar (digitChar (m % 10)) = true :=
    fun m => isDigitChar_digitChar (Nat.mod_lt _ (by norm_num))
  simp only [pad8, List.cons_append, List.nil_append, matches_dni, hd, hc,
    Bool.and_self, Bool.and_true, Bool.true_and]

theorem validate_dni_concat (n : Nat) (hn : n ≤ 99999999) {c ch : Char}
    (hc : isUpperAlpha c = true)
    (hch : LETRAS_VALIDACION[n % 23]? = some ch) :
    validate_dni (pad8 n ++ [c]) = (c == ch) := by
  unfold validate_dni validate_dni_body
  simp only [clean_pad8_letter n hc, matches_dni_pad8 n hc, if_true,
    List.getLast?_concat, List.dropLast_concat, int?_pad8 n hn, hch, catchPy]

/-- C1: for every `n` in `[0, 99999999]`, the 8-digit zero-padded decimal
body of `n` followed by the validation letter `LETRAS_VALIDACION[n mod 23]`
passes `validate_dni`, and the same body followed by any other character of
the validation alphabet fails it. -/
theorem dni_checksum_property (n : Nat) (hn : n ≤ 99999999) (ch : Char)
    (hch : LETRAS_VALIDACION[n % 23]? = some ch) :
    validate_dni (pad8 n ++ [ch]) = true ∧
    ∀ c ∈ LETRAS_VALIDACION, c ≠ ch → validate_dni (pad8 n ++ [c]) = false := by
  obtain ⟨ch0, hch0, hup⟩ := letras_getElem? n
  rw [hch0] at hch
  injection hch with hcheq
  subst hcheq
  constructor
  · rw [validate_dni_concat n hn hup hch0]
    exact beq_self_eq_true ch0
  · intro c hc hne
    rw [validate_dni_concat n hn (letras_mem_upper c hc) hch0]
    exact beq_eq_false_iff_ne.mpr hne

/-- Witness for C1 at `n = 0`: check letter 'T', and 'R' (another alphabet
character) is rejected. -/
theorem dni_checksum_property_witness :
    validate_dni (pad8 0 ++ ['T']) = true ∧
    validate_dni (pad8 0 ++ ['R']) = false := by
  have h := dni_checksum_property 0 (by norm_num) 'T' (by decide)
  exact ⟨h.1, h.2 'R' (by decide) (by decide)⟩

theorem decimalValue_shift (s : List Char) (a : Nat) :
    s.foldl (fun a c => 10 * a + (c.toNat - 48)) a =
      a * 10 ^ s.length + decimalValue s := by
  unfold decimalValue
  induction s generalizing a with
  | nil => simp
  | cons c cs ih =>
    rw [List.foldl_cons, List.foldl_cons, ih, ih (10 * 0 + (c.toNat - 48)),
      List.length_cons]
    ring


theorem decimalValue_cons (c : Char) (s : List Char) :
    decimalValue (c :: s) = (c.toNat - 48) * 10 ^ s.length + decimalValue s := by
  unfold decimalValue
  rw [List.foldl_cons]
  have h := decimalValue_shift s (10 * 0 + (c.toNat - 48))
  simpa using h

theorem matches_nie_parts {p d1 d2 d3 d4 d5 d6 d7 l : Char}
    (hm : matches_nie [p, d1, d2, d3, d4, d5, d6, d7, l] = true) :
    (p = 'X' ∨ p = 'Y' ∨ p = 'Z') ∧
    (∀ c ∈ [d1, d2, d3, d4, d5, d6, d7], isDigitChar c = true) ∧
    isUpperAlpha l = true := by
  simp only [matches_nie, Bool.and_eq_true, Bool.or_eq_true, beq_iff_eq] at hm
  obtain ⟨⟨⟨⟨⟨⟨⟨⟨hp, h1⟩, h2⟩, h3⟩, h4⟩, h5⟩, h6⟩, h7⟩, hl⟩ := hm
  refine ⟨by tauto, ?_, hl⟩
  intro c hc
  simp only [List.mem_cons, List.not_mem_nil, or_false] at hc
  rcases hc with rfl | rfl | rfl | rfl | rfl | rfl | rfl <;> assumption

theorem clean_nie_token {p d1 d2 d3 d4 d5 d6 d7 l : Char}
    (hm : matches_nie [p, d1, d2, d3, d4, d5, d6, d7, l] = true) :
    clean_document [p, d1, d2, d3, d4, d5, d6, d7, l] =
      [p, d1, d2, d3, d4, d5, d6, d7, l] := by
  obtain ⟨hp, hds, hl⟩ := matches_nie_parts hm
  have hdig : ∀ c : Char, isDigitChar c = true → 48 ≤ c.toNat ∧ c.toNat ≤ 90 := by
    intro c hc
    rw [isDigitChar_iff] at hc
    omega
  apply clean_document_id_of
  intro a ha
  simp only [List.mem_cons, List.not_mem_nil, or_false] at ha
  rcases ha with rfl | rfl | rfl | rfl | rfl | rfl | rfl | rfl | rfl
  · rcases hp with rfl | rfl | rfl <;> exact ⟨by decide, by decide⟩
  · exact hdig _ (hds _ (by simp))
  · exact hdig _ (hds _ (by simp))
  · exact hdig _ (hds _ (by simp))
  · exact hdig _ (hds _ (by simp))
  · exact hdig _ (hds _ (by simp))
  · exact hdig _ (hds _ (by simp))
  · exact hdig _ (hds _ (by simp))
  · rw [isUpperAlpha_iff] at hl
    omega

theorem validate_nie_concat {p d1 d2 d3 d4 d5 d6 d7 l ch : Char}
    (hm : matches_nie [p, d1, d2, d3, d4, d5, d6, d7, l] = true)
    (hch : LETRAS_VALIDACION[((if p = 'X' then 0 else if p = 'Y' then 1 else 2) *
        10000000 + decimalValue [d1, d2, d3, d4, d5, d6, d7]) % 23]? = some ch) :
    validate_nie [p, d1, d2, d3, d4, d5, d6, d7, l] = (l == ch) := by
  obtain ⟨hp, hds, _⟩ := matches_nie_parts hm
  have hdig : ∀ pc : Char, isDigitChar pc = true →
      ∀ c ∈ pc :: [d1, d2, d3, d4, d5, d6, d7], isDigitChar c = true := by
    intro pc hpc c hc
    rcases List.mem_cons.mp hc with rfl | hc
    · exact hpc
    · exact hds c hc
  have hlen : ([d1, d2, d3, d4, d5, d6, d7] : List Char).length = 7 := rfl
  have hdrop : ([d1, d2, d3, d4, d5, d6, d7, l] : List Char).dropLast =
      [d1, d2, d3, d4, d5, d6, d7] := rfl
  rcases hp with rfl | rfl | rfl
  · rw [show (if ('X' : Char) = 'X' then 0 else if ('X' : Char) = 'Y' then 1
        else 2) = 0 from rfl] at hch
    simp only [Nat.zero_mul, Nat.zero_add] at hch
    have hint : int? ('0' :: [d1, d2, d3, d4, d5, d6, d7]) =
        some (decimalValue [d1, d2, d3, d4, d5, d6, d7]) := by
      rw [int?_eq_some_of_digits (by simp) (hdig '0' (by decide)),
        decimalValue_cons]
      rw [show ('0' : Char).toNat - 48 = 0 from rfl, hlen, Nat.zero_mul,
        Nat.zero_add]
    have hlast : (['X', d1, d2, d3, d4, d5, d6, d7, l] : List Char).getLast? =
        some l := rfl
    have hpre : prefijoNIE 'X' = some '0' := rfl
    simp only [validate_nie, validate_nie_body, clean_nie_token hm, hm,
      if_true, List.head?_cons, hpre, hlast, List.tail_cons, hdrop, hint,
      hch, catchPy]
  · rw [show (if ('Y' : Char) = 'X' then 0 else if ('Y' : Char) = 'Y' then 1
        else 2) = 1 from rfl] at hch
    have hint : int? ('1' :: [d1, d2, d3, d4, d5, d6, d7]) =
        some (1 * 10000000 + decimalValue [d1, d2, d3, d4, d5, d6, d7]) := by
      rw [int?_eq_some_of_digits (by simp) (hdig '1' (by decide)),
        decimalValue_cons]
      rw [show ('1' : Char).toNat - 48 = 1 from rfl, hlen,
        show (10 : Nat) ^ 7 = 10000000 from rfl]
    have hlast : (['Y', d1, d2, d3, d4, d5, d6, d7, l] : List Char).getLast? =
        some l := rfl
    have hpre : prefijoNIE 'Y' = some '1' := rfl
    simp only [validate_nie, validate_nie_body, clean_nie_token hm, hm,
      if_true, List.head?_cons, hpre, hlast, List.tail_cons, hdrop, hint,
      hch, catchPy]
  · rw [show (if ('Z' : Char) = 'X' then 0 else if ('Z' : Char) = 'Y' then 1
        else 2) = 2 from rfl] at hch
    have hint : int? ('2' :: [d1, d2, d3, d4, d5, d6, d7]) =
        some (2 * 10000000 + decimalValue [d1, d2, d3, d4, d5, d6, d7]) := by
      rw [int?_eq_some_of_digits (by simp) (hdig '2' (by decide)),
        decimalValue_cons]
      rw [show ('2' : Char).toNat - 48 = 2 from rfl, hlen,
        show (10 : Nat) ^ 7 = 10000000 from rfl]
    have hlast : (['Z', d1, d2, d3, d4, d5, d6, d7, l] : List Char).getLast? =
        some l := rfl
    have hpre : prefijoNIE 'Z' = some '2' := rfl
    simp only [validate_nie, validate_nie_body, clean_nie_token hm, hm,
      if_true, List.head?_cons, hpre, hlast, List.tail_cons, hdrop, hint,
      hch, catchPy]

/-- C2: for every token of shape one letter from X, Y, Z followed by seven
decimal digits and one uppercase letter, `validate_nie` maps the leading
letter to the prefix digit 0/1/2, parses the prefix digit concatenated with
the seven digits as an unsigned integer `n`, and accepts exactly when the
trailing letter is `LETRAS_VALIDACION[n mod 23]`; any string whose cleaned
form is not of that shape is rejected. -/
theorem nie_checksum_property :
    (∀ p d1 d2 d3 d4 d5 d6 d7 l : Char,
      matches_nie [p, d1, d2, d3, d4, d5, d6, d7, l] = true →
      (validate_nie [p, d1, d2, d3, d4, d5, d6, d7, l] = true ↔
        LETRAS_VALIDACION[((if p = 'X' then 0 else if p = 'Y' then 1 else 2) *
            10000000 + decimalValue [d1, d2, d3, d4, d5, d6, d7]) % 23]? =
          some l)) ∧
    (∀ s : List Char, matches_nie (clean_document s) = false →
      validate_nie s = false) := by
  constructor
  · intro p d1 d2 d3 d4 d5 d6 d7 l hm
    obtain ⟨ch, hch, _⟩ := letras_getElem?
      ((if p = 'X' then 0 else if p = 'Y' then 1 else 2) * 10000000 +
        decimalValue [d1, d2, d3, d4, d5, d6, d7])
    rw [validate_nie_concat hm hch, hch]
    simp only [beq_iff_eq, Option.some.injEq]
    exact eq_comm
  · intro s hm
    simp [validate_nie, validate_nie_body, hm, catchPy]

/-- Witness for C2: the checksum-correct NIE token X1234567L validates, and
a string that is not NIE-shaped is rejected. -/
theorem nie_checksum_property_witness :
    validate_nie ['X', '1', '2', '3', '4', '5', '6', '7', 'L'] = true ∧
    validate_nie ['A', 'B'] = false := by
  have h := nie_checksum_property
  exact ⟨(h.1 'X' '1' '2' '3' '4' '5' '6' '7' 'L' (by decide)).mpr (by decide),
    h.2 ['A', 'B'] (by decide)⟩

theorem isNifLeading_iff (c : Char) :
    isNifLeading c = true ↔
      (65 ≤ c.toNat ∧ c.toNat ≤ 72) ∨ c.toNat = 74 ∨ c.toNat = 78 ∨
      (80 ≤ c.toNat ∧ c.toNat ≤ 83) ∨ (85 ≤ c.toNat ∧ c.toNat ≤ 87) := by
  unfold isNifLeading
  simp only [Bool.or_eq_true, Bool.and_eq_true, decide_eq_true_eq,
    char_beq_iff_toNat, char_le_iff_toNat]
  rw [show ('A' : Char).toNat = 65 from rfl, show ('H' : Char).toNat = 72 from rfl,
    show ('J' : Char).toNat = 74 from rfl, show ('N' : Char).toNat = 78 from rfl,
    show ('P' : Char).toNat = 80 from rfl, show ('S' : Char).toNat = 83 from rfl,
    show ('U' : Char).toNat = 85 from rfl, show ('W' : Char).toNat = 87 from rfl]
  tauto

theorem mem_nifLeadingSet_iff (c : Char) :
    c ∈ "ABCDEFGHJNPQRSUVW".data ↔
      c.toNat ∈ ([65, 66, 67, 68, 69, 70, 71, 72, 74, 78, 80, 81, 82, 83,
        85, 86, 87] : List Nat) := by
  rw [show "ABCDEFGHJNPQRSUVW".data =
    ['A', 'B', 'C', 'D', 'E', 'F', 'G', 'H', 'J', 'N', 'P', 'Q', 'R', 'S',
     'U', 'V', 'W'] from rfl]
  simp only [List.mem_cons, List.not_mem_nil, or_false, char_eq_iff_toNat]
  constructor <;> intro h <;> exact h

theorem isNifLeading_eq_spec (c : Char) :
    isNifLeading c = decide (c ∈ "ABCDEFGHJNPQRSUVW".data) := by
  by_cases h : c ∈ "ABCDEFGHJNPQRSUVW".data
  · rw [decide_eq_true h, isNifLeading_iff]
    have ht := (mem_nifLeadingSet_iff c).mp h
    simp only [List.mem_cons, List.not_mem_nil, or_false] at ht
    omega
  · rw [decide_eq_false h, Bool.eq_false_iff]
    intro hl
    rw [isNifLeading_iff] at hl
    apply h
    rw [mem_nifLeadingSet_iff]
    simp only [List.mem_cons, List.not_mem_nil, or_false]
    omega

theorem matches_nif_eq_spec (d : List Char) : matches_nif d = nifShapeSpec d := by
  rcases d with _ | ⟨a1, _ | ⟨a2, _ | ⟨a3, _ | ⟨a4, _ | ⟨a5, _ | ⟨a6, _ |
    ⟨a7, _ | ⟨a8, _ | ⟨a9, _ | ⟨a10, rest⟩⟩⟩⟩⟩⟩⟩⟩⟩⟩
  case cons.cons.cons.cons.cons.cons.cons.cons.cons.nil =>
    simp only [matches_nif, nifShapeSpec, isNifLeading_eq_spec]
  all_goals rfl

/-- C4: `validate_nif` accepts exactly the strings whose cleaned form is
one letter from the set ABCDEFGHJNPQRSUVW followed by exactly seven
decimal digits and one trailing character that is a digit or an uppercase
letter; it rejects every other string, and no checksum enters the
decision. -/
theorem nif_shape_only (s : List Char) :
    validate_nif s = nifShapeSpec (clean_document s) := by
  unfold validate_nif
  exact matches_nif_eq_spec (clean_document s)

/-- C8: `clean_document` is idempotent. -/
theorem clean_document_idempotent (s : List Char) :
    clean_document (clean_document s) = clean_document s :=
  clean_document_idem s

/-- C10: each validator is invariant under normalisation: validating any
string gives the same verdict as validating its cleaned form. -/
theorem validators_clean_invariant (s : List Char) :
    validate_dni (clean_document s) = validate_dni s ∧
    validate_nie (clean_document s) = validate_nie s ∧
    validate_nif (clean_document s) = validate_nif s := by
  refine ⟨?_, ?_, ?_⟩ <;>
    simp only [validate_dni, validate_nie, validate_nif, validate_dni_body,
      validate_nie_body, clean_document_idem]

theorem matches_dni_digits {a1 a2 a3 a4 a5 a6 a7 a8 l : Char}
    (hm : matches_dni [a1, a2, a3, a4, a5, a6, a7, a8, l] = true) :
    ∀ c ∈ [a1, a2, a3, a4, a5, a6, a7, a8], isDigitChar c = true := by
  simp only [matches_dni, Bool.and_eq_true] at hm
  obtain ⟨⟨⟨⟨⟨⟨⟨⟨h1, h2⟩, h3⟩, h4⟩, h5⟩, h6⟩, h7⟩, h8⟩, _⟩ := hm
  intro c hc
  simp only [List.mem_cons, List.not_mem_nil, or_false] at hc
  rcases hc with rfl | rfl | rfl | rfl | rfl | rfl | rfl | rfl <;> assumption

theorem validate_dni_body_ok (s : List Char) :
    ∃ b, validate_dni_body s = Except.ok b := by
  unfold validate_dni_body
  generalize clean_document s = d
  by_cases hm : matches_dni d = true
  case neg =>
    rw [if_neg hm]
    exact ⟨false, rfl⟩
  case pos =>
    rw [if_pos hm]
    rcases d with _ | ⟨a1, _ | ⟨a2, _ | ⟨a3, _ | ⟨a4, _ | ⟨a5, _ | ⟨a6, _ |
      ⟨a7, _ | ⟨a8, _ | ⟨a9, _ | ⟨a10, rest⟩⟩⟩⟩⟩⟩⟩⟩⟩⟩
    all_goals try exact absurd hm Bool.false_ne_true
    obtain ⟨n, hn⟩ : ∃ n, int? [a1, a2, a3, a4, a5, a6, a7, a8] = some n :=
      ⟨_, int?_eq_some_of_digits (by simp) (matches_dni_digits hm)⟩
    obtain ⟨ch, hch, _⟩ := letras_getElem? n
    simp only [show ([a1, a2, a3, a4, a5, a6, a7, a8, a9] :
        List Char).getLast? = some a9 from rfl,
      show ([a1, a2, a3, a4, a5, a6, a7, a8, a9] : List Char).dropLast =
        [a1, a2, a3, a4, a5, a6, a7, a8] from rfl,
      hn, hch]
    exact ⟨a9 == ch, rfl⟩

theorem validate_nie_body_ok (s : List Char) :
    ∃ b, validate_nie_body s = Except.ok b := by
  unfold validate_nie_body
  generalize clean_document s = d
  by_cases hm : matches_nie d = true
  case neg =>
    rw [if_neg hm]
    exact ⟨false, rfl⟩
  case pos =>
    rw [if_pos hm]
    rcases d with _ | ⟨a1, _ | ⟨a2, _ | ⟨a3, _ | ⟨a4, _ | ⟨a5, _ | ⟨a6, _ |
      ⟨a7, _ | ⟨a8, _ | ⟨a9, _ | ⟨a10, rest⟩⟩⟩⟩⟩⟩⟩⟩⟩⟩
    all_goals try exact absurd hm Bool.false_ne_true
    obtain ⟨hp, hds, _⟩ := matches_nie_parts hm
    have hdig : ∀ pc : Char, isDigitChar pc = true →
        ∃ n, int? (pc :: [a2, a3, a4, a5, a6, a7, a8]) = some n := by
      intro pc hpc
      refine ⟨_, int?_eq_some_of_digits (by simp) ?_⟩
      intro c hc
      rcases List.mem_cons.mp hc with rfl | hc
      · exact hpc
      · exact hds c hc
    have htl : ([a1, a2, a3, a4, a5, a6, a7, a8, a9] :
        List Char).tail.dropLast = [a2, a3, a4, a5, a6, a7, a8] := rfl
    have hhd : ([a1, a2, a3, a4, a5, a6, a7, a8, a9] : List Char).head? =
        some a1 := rfl
    have hlast : ([a1, a2, a3, a4, a5, a6, a7, a8, a9] : List Char).getLast? =
        some a9 := rfl
    rcases hp with rfl | rfl | rfl
    · obtain ⟨n, hn⟩ := hdig '0' (by decide)
      obtain ⟨ch, hch, _⟩ := letras_getElem? n
      simp only [hhd, hlast, htl, hn, hch,
        show prefijoNIE 'X' = some '0' from rfl]
      exact ⟨a9 == ch, rfl⟩
    · obtain ⟨n, hn⟩ := hdig '1' (by decide)
      obtain ⟨ch, hch, _⟩ := letras_getElem? n
      simp only [hhd, hlast, htl, hn, hch,
        show prefijoNIE 'Y' = some '1' from rfl]
      exact ⟨a9 == ch, rfl⟩
    · obtain ⟨n, hn⟩ := hdig '2' (by decide)
      obtain ⟨ch, hch, _⟩ := letras_getElem? n
      simp only [hhd, hlast, htl, hn, hch,
        show prefijoNIE 'Z' = some '2' from rfl]
      exact ⟨a9 == ch, rfl⟩

/-- C7: the three validators are total: for every input string the `try`
bodies of `validate_dni` and `validate_nie` return normally — no
`IndexError`, `ValueError` or `KeyError` escapes, every internal failure
path yields `False` — and `validate_nif` likewise returns a boolean. -/
theorem validators_total (s : List Char) :
    validate_dni_body s = Except.ok (validate_dni s) ∧
    validate_nie_body s = Except.ok (validate_nie s) ∧
    (validate_nif s = true ∨ validate_nif s = false) := by
  obtain ⟨b1, hb1⟩ := validate_dni_body_ok s
  obtain ⟨b2, hb2⟩ := validate_nie_body_ok s
  refine ⟨?_, ?_, ?_⟩
  · rw [hb1, validate_dni, hb1]
    rfl
  · rw [hb2, validate_nie, hb2]
    rfl
  · rcases h : validate_nif s with _ | _
    · exact Or.inr rfl
    · exact Or.inl rfl

/-! ### Scanner lemmas -/

theorem finditer_go_ge (tok : List Char → Bool) (text : List Char) :
    ∀ (fuel i : Nat), ∀ m ∈ finditer_go tok text fuel i, i ≤ m.1 := by
  intro fuel
  induction fuel with
  | zero =>
    intro i m hm
    simp [finditer_go] at hm
  | succ fuel ih =>
    intro i m hm
    unfold finditer_go at hm
    by_cases h9 : i + 9 ≤ text.length
    · rw [if_pos h9] at hm
      by_cases hmt : matchAt tok text i = true
      · rw [if_pos hmt] at hm
        rcases List.mem_cons.mp hm with rfl | hm
        · exact Nat.le_refl i
        · have := ih (i + 9) m hm
          omega
      · rw [if_neg hmt] at hm
        have := ih (i + 1) m hm
        omega
    · rw [if_neg h9] at hm
      simp at hm

theorem finditer_go_pairwise (tok : List Char → Bool) (text : List Char) :
    ∀ (fuel i : Nat),
      List.Pairwise (fun a b => a.1 < b.1) (finditer_go tok text fuel i) := by
  intro fuel
  induction fuel with
  | zero =>
    intro i
    simp [finditer_go]
  | succ fuel ih =>
    intro i
    unfold finditer_go
    split
    · split
      · refine List.Pairwise.cons ?_ (ih (i + 9))
        intro b hb
        have := finditer_go_ge tok text fuel (i + 9) b hb
        show i < b.1
        omega
      · exact ih (i + 1)
    · exact List.Pairwise.nil

theorem foldl_scanStep_fst (tipo : Tipo) (ms : List (Nat × List Char)) :
    ∀ (res : List Resultado) (st : Stats),
      (ms.foldl (scanStep tipo) (res, st)).1 =
        res ++ ms.map (fun m => mkResultado tipo m.2) := by
  induction ms with
  | nil =>
    intro res st
    simp
  | cons m ms ih =>
    intro res st
    rw [List.foldl_cons, List.map_cons,
      show scanStep tipo (res, st) m = (res ++ [mkResultado tipo m.2],
        bumpStats st tipo (mkResultado tipo m.2).valido) from rfl,
      ih, List.append_assoc]
    rfl

theorem scanTipo_fst (tipo : Tipo) (texto : List Char)
    (acc : List Resultado × Stats) :
    (scanTipo tipo texto acc).1 =
      acc.1 ++ (finditer (patronOf tipo) texto).map
        (fun m => mkResultado tipo m.2) := by
  obtain ⟨res, st⟩ := acc
  exact foldl_scanStep_fst tipo _ res st

/-- C5: the result sequence of one scan is the DNI-pattern matches first,
then the NIE matches, then the NIF matches — three independent passes —
with each pass's match offsets strictly increasing left to right, and
every result carrying the type of its own pass. -/
theorem scan_ordering (texto : List Char) (st : Stats) :
    (process_text texto st).1 =
      (finditer (patronOf Tipo.DNI) texto).map
        (fun m => mkResultado Tipo.DNI m.2) ++
      (finditer (patronOf Tipo.NIE) texto).map
        (fun m => mkResultado Tipo.NIE m.2) ++
      (finditer (patronOf Tipo.NIF) texto).map
        (fun m => mkResultado Tipo.NIF m.2) ∧
    (∀ tipo : Tipo,
      List.Pairwise (fun a b => a.1 < b.1) (finditer (patronOf tipo) texto)) ∧
    (∀ tipo : Tipo, ∀ m ∈ finditer (patronOf tipo) texto,
      (mkResultado tipo m.2).tipo = tipo) := by
  refine ⟨?_, fun tipo => finditer_go_pairwise (patronOf tipo) texto _ 0,
    fun tipo m _ => rfl⟩
  show (scanTipo Tipo.NIF texto (scanTipo Tipo.NIE texto
    (scanTipo Tipo.DNI texto ([], st)))).1 = _
  rw [scanTipo_fst, scanTipo_fst, scanTipo_fst, List.nil_append]

/-- C9: a text in which none of the three patterns matches produces an
empty result sequence, and the only statistics change is
archivos_procesados increasing by one. -/
theorem scan_no_matches (texto : List Char) (st : Stats)
    (h1 : finditer (patronOf Tipo.DNI) texto = [])
    (h2 : finditer (patronOf Tipo.NIE) texto = [])
    (h3 : finditer (patronOf Tipo.NIF) texto = []) :
    process_text texto st =
      ([], { st with archivos_procesados := st.archivos_procesados + 1 }) := by
  unfold process_text scanTipo
  rw [h1, h2, h3]
  rfl

/-- Witness for C9: scanning the empty text. -/
theorem scan_no_matches_witness :
    process_text [] initStats =
      ([], { initStats with archivos_procesados := 1 }) :=
  scan_no_matches [] initStats rfl rfl rfl

/-- C3 counterexample: scanning the text "X1234567L no coincide" does NOT
produce an NIE result with valid flag false (the one NIE result found is
valid). -/
theorem scan_X1234567L_counterexample :
    ¬ ∃ r ∈ (process_text "X1234567L no coincide".data initStats).1,
        r.tipo = Tipo.NIE ∧ r.valido = false := by
  decide

/-- C3 (amended): scanning the text "X1234567L no coincide" produces
exactly one result, an NIE result for X1234567L whose valid flag is true,
because the numeric body "01234567" parses to 1234567,
1234567 mod 23 = 19, and LETRAS_VALIDACION[19] = 'L', which equals the
trailing letter. -/
theorem scan_X1234567L_amended :
    (process_text "X1234567L no coincide".data initStats).1 =
      [{ tipo := Tipo.NIE, documento := "X1234567L".data,
         documento_limpio := "X1234567L".data, valido := true }] ∧
    int? "01234567".data = some 1234567 ∧
    1234567 % 23 = 19 ∧
    LETRAS_VALIDACION[(19 : Nat)]? = some 'L' := by
  refine ⟨by decide, by decide, by decide, by decide⟩

theorem bumpStats_fields (st : Stats) (tipo : Tipo) (v : Bool) :
    (bumpStats st tipo v).archivos_procesados = st.archivos_procesados ∧
    (bumpStats st tipo v).dni_validos =
      st.dni_validos + (if tipo = Tipo.DNI ∧ v = true then 1 else 0) ∧
    (bumpStats st tipo v).nie_validos =
      st.nie_validos + (if tipo = Tipo.NIE ∧ v = true then 1 else 0) ∧
    (bumpStats st tipo v).nif_validos =
      st.nif_validos + (if tipo = Tipo.NIF ∧ v = true then 1 else 0) ∧
    (bumpStats st tipo v).docs_invalidos =
      st.docs_invalidos + (if v = false then 1 else 0) := by
  rcases tipo <;> rcases v <;> simp [bumpStats]

theorem foldl_scanStep_snd (tipo : Tipo) (ms : List (Nat × List Char)) :
    ∀ (res : List Resultado) (st : Stats),
      ((ms.foldl (scanStep tipo) (res, st)).2).archivos_procesados =
        st.archivos_procesados ∧
      ((ms.foldl (scanStep tipo) (res, st)).2).dni_validos =
        st.dni_validos + (if tipo = Tipo.DNI then
          ms.countP (fun m => (mkResultado tipo m.2).valido) else 0) ∧
      ((ms.foldl (scanStep tipo) (res, st)).2).nie_validos =
        st.nie_validos + (if tipo = Tipo.NIE then
          ms.countP (fun m => (mkResultado tipo m.2).valido) else 0) ∧
      ((ms.foldl (scanStep tipo) (res, st)).2).nif_validos =
        st.nif_validos + (if tipo = Tipo.NIF then
          ms.countP (fun m => (mkResultado tipo m.2).valido) else 0) ∧
      ((ms.foldl (scanStep tipo) (res, st)).2).docs_invalidos =
        st.docs_invalidos +
          ms.countP (fun m => !(mkResultado tipo m.2).valido) := by
  induction ms with
  | nil =>
    intro res st
    simp
  | cons m ms ih =>
    intro res st
    rw [List.foldl_cons,
      show scanStep tipo (res, st) m = (res ++ [mkResultado tipo m.2],
        bumpStats st tipo (mkResultado tipo m.2).valido) from rfl]
    obtain ⟨ha, hd, hn, hf, hi⟩ := ih (res ++ [mkResultado tipo m.2])
      (bumpStats st tipo (mkResultado tipo m.2).valido)
    obtain ⟨ba, bd, bn, bf, bi⟩ :=
      bumpStats_fields st tipo (mkResultado tipo m.2).valido
    refine ⟨by rw [ha, ba], ?_, ?_, ?_, ?_⟩
    · rw [hd, bd, List.countP_cons]
      rcases tipo <;> rcases hv : (mkResultado _ m.2).valido <;>
        (simp [hv]; try omega)
    · rw [hn, bn, List.countP_cons]
      rcases tipo <;> rcases hv : (mkResultado _ m.2).valido <;>
        (simp [hv]; try omega)
    · rw [hf, bf, List.countP_cons]
      rcases tipo <;> rcases hv : (mkResultado _ m.2).valido <;>
        (simp [hv]; try omega)
    · rw [hi, bi, List.countP_cons]
      rcases hv : (mkResultado _ m.2).valido <;> (simp [hv]; try omega)

theorem scanTipo_snd (tipo : Tipo) (texto : List Char)
    (acc : List Resultado × Stats) :
    ((scanTipo tipo texto acc).2).archivos_procesados =
      acc.2.archivos_procesados ∧
    ((scanTipo tipo texto acc).2).dni_validos =
      acc.2.dni_validos + (if tipo = Tipo.DNI then
        (finditer (patronOf tipo) texto).countP
          (fun m => (mkResultado tipo m.2).valido) else 0) ∧
    ((scanTipo tipo texto acc).2).nie_validos =
      acc.2.nie_validos + (if tipo = Tipo.NIE then
        (finditer (patronOf tipo) texto).countP
          (fun m => (mkResultado tipo m.2).valido) else 0) ∧
    ((scanTipo tipo texto acc).2).nif_validos =
      acc.2.nif_validos + (if tipo = Tipo.NIF then
        (finditer (patronOf tipo) texto).countP
          (fun m => (mkResultado tipo m.2).valido) else 0) ∧
    ((scanTipo tipo texto acc).2).docs_invalidos =
      acc.2.docs_invalidos + (finditer (patronOf tipo) texto).countP
        (fun m => !(mkResultado tipo m.2).valido) := by
  obtain ⟨res, st⟩ := acc
  exact foldl_scanStep_snd tipo _ res st

theorem countP_tipo_map (t t' : Tipo) (ms : List (Nat × List Char)) :
    ((ms.map (fun m => mkResultado t m.2)).countP
      (fun r => decide (r.tipo = t') && r.valido)) =
    (if t = t' then ms.countP (fun m => (mkResultado t m.2).valido)
     else 0) := by
  rw [List.countP_map]
  by_cases h : t = t'
  · subst h
    rw [if_pos rfl]
    apply List.countP_congr
    intro m _
    show (decide ((mkResultado t m.2).tipo = t) &&
      (mkResultado t m.2).valido) = true ↔ (mkResultado t m.2).valido = true
    rw [show (mkResultado t m.2).tipo = t from rfl]
    simp
  · rw [if_neg h]
    have hz : (ms.countP fun m => false) = 0 := by
      simp [List.countP_false]
    rw [← hz]
    apply List.countP_congr
    intro m _
    show (decide ((mkResultado t m.2).tipo = t') &&
      (mkResultado t m.2).valido) = true ↔ false = true
    rw [show (mkResultado t m.2).tipo = t from rfl]
    simp [h]

theorem countP_valido_map (t : Tipo) (ms : List (Nat × List Char)) :
    ((ms.map (fun m => mkResultado t m.2)).countP (fun r => r.valido)) =
      ms.countP (fun m => (mkResultado t m.2).valido) := by
  rw [List.countP_map]
  rfl

theorem countP_invalido_map (t : Tipo) (ms : List (Nat × List Char)) :
    ((ms.map (fun m => mkResultado t m.2)).countP (fun r => !r.valido)) =
      ms.countP (fun m => !(mkResultado t m.2).valido) := by
  rw [List.countP_map]
  rfl

theorem countP_valido_not (l : List Resultado) :
    l.countP (fun r => r.valido) + l.countP (fun r => !r.valido) =
      l.length := by
  induction l with
  | nil => simp
  | cons r l ih =>
    rw [List.countP_cons, List.countP_cons, List.length_cons]
    rcases hv : r.valido <;> simp [hv] <;> omega

/-- C6: one scan increments each per-type valid counter by exactly the
number of valid results of that type and docs_invalidos by exactly the
number of invalid results (each result counted exactly once), increments
archivos_procesados by exactly one, and never decreases any counter. -/
theorem scan_statistics (texto : List Char) (st : Stats) :
    ((process_text texto st).2).archivos_procesados =
      st.archivos_procesados + 1 ∧
    ((process_text texto st).2).dni_validos = st.dni_validos +
      (process_text texto st).1.countP
        (fun r => decide (r.tipo = Tipo.DNI) && r.valido) ∧
    ((process_text texto st).2).nie_validos = st.nie_validos +
      (process_text texto st).1.countP
        (fun r => decide (r.tipo = Tipo.NIE) && r.valido) ∧
    ((process_text texto st).2).nif_validos = st.nif_validos +
      (process_text texto st).1.countP
        (fun r => decide (r.tipo = Tipo.NIF) && r.valido) ∧
    ((process_text texto st).2).docs_invalidos = st.docs_invalidos +
      (process_text texto st).1.countP (fun r => !r.valido) ∧
    (process_text texto st).1.countP (fun r => r.valido) =
      (process_text texto st).1.countP
        (fun r => decide (r.tipo = Tipo.DNI) && r.valido) +
      (process_text texto st).1.countP
        (fun r => decide (r.tipo = Tipo.NIE) && r.valido) +
      (process_text texto st).1.countP
        (fun r => decide (r.tipo = Tipo.NIF) && r.valido) ∧
    (process_text texto st).1.countP (fun r => r.valido) +
      (process_text texto st).1.countP (fun r => !r.valido) =
      (process_text texto st).1.length ∧
    st.archivos_procesados ≤
      ((process_text texto st).2).archivos_procesados ∧
    st.dni_validos ≤ ((process_text texto st).2).dni_validos ∧
    st.nie_validos ≤ ((process_text texto st).2).nie_validos ∧
    st.nif_validos ≤ ((process_text texto st).2).nif_validos ∧
    st.docs_invalidos ≤ ((process_text texto st).2).docs_invalidos := by
  have hres : (process_text texto st).1 =
      (finditer (patronOf Tipo.DNI) texto).map
        (fun m => mkResultado Tipo.DNI m.2) ++
      (finditer (patronOf Tipo.NIE) texto).map
        (fun m => mkResultado Tipo.NIE m.2) ++
      (finditer (patronOf Tipo.NIF) texto).map
        (fun m => mkResultado Tipo.NIF m.2) := by
    show (scanTipo Tipo.NIF texto (scanTipo Tipo.NIE texto
      (scanTipo Tipo.DNI texto ([], st)))).1 = _
    rw [scanTipo_fst, scanTipo_fst, scanTipo_fst, List.nil_append]
  obtain ⟨a1, d1, n1, f1, i1⟩ := scanTipo_snd Tipo.DNI texto ([], st)
  obtain ⟨a2, d2, n2, f2, i2⟩ :=
    scanTipo_snd Tipo.NIE texto (scanTipo Tipo.DNI texto ([], st))
  obtain ⟨a3, d3, n3, f3, i3⟩ := scanTipo_snd Tipo.NIF texto
    (scanTipo Tipo.NIE texto (scanTipo Tipo.DNI texto ([], st)))
  rw [if_pos rfl] at d1
  rw [if_pos rfl] at n2
  rw [if_pos rfl] at f3
  rw [if_neg (by decide : ¬(Tipo.DNI = Tipo.NIE))] at n1
  rw [if_neg (by decide : ¬(Tipo.DNI = Tipo.NIF))] at f1
  rw [if_neg (by decide : ¬(Tipo.NIE = Tipo.DNI))] at d2
  rw [if_neg (by decide : ¬(Tipo.NIE = Tipo.NIF))] at f2
  rw [if_neg (by decide : ¬(Tipo.NIF = Tipo.DNI))] at d3
  rw [if_neg (by decide : ¬(Tipo.NIF = Tipo.NIE))] at n3
  rw [show (([], st) : List Resultado × Stats).2 = st from rfl] at a1 d1 n1 f1 i1
  have pa : ((process_text texto st).2).archivos_procesados =
      ((scanTipo Tipo.NIF texto (scanTipo Tipo.NIE texto
        (scanTipo Tipo.DNI texto ([], st)))).2).archivos_procesados + 1 := rfl
  have pd : ((process_text texto st).2).dni_validos =
      ((scanTipo Tipo.NIF texto (scanTipo Tipo.NIE texto
        (scanTipo Tipo.DNI texto ([], st)))).2).dni_validos := rfl
  have pn : ((process_text texto st).2).nie_validos =
      ((scanTipo Tipo.NIF texto (scanTipo Tipo.NIE texto
        (scanTipo Tipo.DNI texto ([], st)))).2).nie_validos := rfl
  have pf : ((process_text texto st).2).nif_validos =
      ((scanTipo Tipo.NIF texto (scanTipo Tipo.NIE texto
        (scanTipo Tipo.DNI texto ([], st)))).2).nif_validos := rfl
  have pi2 : ((process_text texto st).2).docs_invalidos =
      ((scanTipo Tipo.NIF texto (scanTipo Tipo.NIE texto
        (scanTipo Tipo.DNI texto ([], st)))).2).docs_invalidos := rfl
  have hpart := countP_valido_not ((process_text texto st).1)
  rw [hres]
  simp only [List.countP_append, countP_tipo_map, countP_valido_map,
    countP_invalido_map, List.length_append, List.length_map, if_true,
    eq_false (by decide : ¬(Tipo.NIE = Tipo.DNI)),
    eq_false (by decide : ¬(Tipo.NIF = Tipo.DNI)),
    eq_false (by decide : ¬(Tipo.DNI = Tipo.NIE)),
    eq_false (by decide : ¬(Tipo.NIF = Tipo.NIE)),
    eq_false (by decide : ¬(Tipo.DNI = Tipo.NIF)),
    eq_false (by decide : ¬(Tipo.NIE = Tipo.NIF)), if_false]
  rw [hres] at hpart
  simp only [List.countP_append, countP_valido_map, countP_invalido_map,
    List.length_append, List.length_map] at hpart
  refine ⟨by omega, by omega, by omega, by omega, by omega, by omega,
    by omega, by omega, by omega, by omega, by omega, by omega⟩

end Busqueitor
